import Mathlib

/-!
Shallow embedding of miniscript's action layer (src/miniscript/_actions.py and
src/miniscript/_types.py): the Result record, the When guard, the parameter
validation algorithm of Action.validate, the invocation protocol of
Action.__call__, and the built-in variants Block, Fail, Log, Return and Vars.

Python JSON-like values are the inductive `Value`; a parameter payload
(ParamsType) is a Value that is null, an object, or a bare value.  The mutable
execution context and the engine logger are threaded explicitly through an
`EState`.  Raisable conditions are the inductive `Err`.
-/

namespace Miniscript

/-- JSON-like Python values (covers _types.JsonType). -/
inductive Value where
  | null
  | bool (b : Bool)
  | int (n : Int)
  | str (s : String)
  | list (xs : List Value)
  | obj (kvs : List (String × Value))
deriving Repr

mutual

/-- Python repr() on JSON-like values. -/
def pyRepr : Value → String
  | .null => "None"
  | .bool true => "True"
  | .bool false => "False"
  | .int n => toString n
  | .str s => "\x27" ++ s ++ "\x27"
  | .list xs => "[" ++ pyReprList xs ++ "]"
  | .obj kvs => "\x7b" ++ pyReprObj kvs ++ "\x7d"

def pyReprList : List Value → String
  | [] => ""
  | [v] => pyRepr v
  | v :: rest => pyRepr v ++ ", " ++ pyReprList rest

def pyReprObj : List (String × Value) → String
  | [] => ""
  | [(k, v)] => "\x27" ++ k ++ "\x27: " ++ pyRepr v
  | (k, v) :: rest => "\x27" ++ k ++ "\x27: " ++ pyRepr v ++ ", " ++ pyReprObj rest

end

/-- Python str() on JSON-like values: identity on strings, repr otherwise. -/
def pyStr : Value → String
  | .str s => s
  | v => pyRepr v

/-- Raisable conditions.  InvalidDefinition carries the positional arguments
the exception was constructed with (the code sometimes passes several). -/
inductive Err where
  | invalidDefinition (args : List String)
  | runtimeError (msg : String)
  | executionFailed (msg : String)
  | keyError (key : String)
  | valueError (msg : String)
  | typeError (msg : String)
  | finishScript (value : Value)
deriving Repr

/-- Modelled from the spec: the classes FinishScript and ExecutionFailed are
referenced by Return.execute and Fail.execute but are not defined in
src/miniscript/_types.py.  Per the spec, *script finished* is "not an error; a
termination signal ... must never be swallowed by an ignoreErrors flag", so
finishScript is the one raisable that the except-Exception handler of
Action.__call__ does not catch, while *execution aborted* (ExecutionFailed) is
"propagated according to the ignore-errors policy", hence an ordinary
exception. -/
def Err.isException : Err → Bool
  | .finishScript _ => false
  | _ => true

/-- Python exception class name, for the failure message of a Result. -/
def Err.className : Err → String
  | .invalidDefinition _ => "InvalidDefinition"
  | .runtimeError _ => "RuntimeError"
  | .executionFailed _ => "ExecutionFailed"
  | .keyError _ => "KeyError"
  | .valueError _ => "ValueError"
  | .typeError _ => "TypeError"
  | .finishScript _ => "FinishScript"

/-- Python str() of an exception. -/
def Err.message : Err → String
  | .invalidDefinition [a] => a
  | .invalidDefinition args => "(" ++ String.intercalate ", " args ++ ")"
  | .runtimeError m => m
  | .executionFailed m => m
  | .keyError k => "\x27" ++ k ++ "\x27"
  | .valueError m => m
  | .typeError m => m
  | .finishScript v => pyStr v

/-- The coercion callables used by the built-in variants (values of the
required_params / optional_params mappings that are not None). -/
inductive PType where
  | str
  | list
deriving Repr, DecidableEq

/-- Python list() on a JSON-like value; raises TypeError on non-iterables. -/
def pyList : Value → Except Err Value
  | .list xs => .ok (.list xs)
  | .str s => .ok (.list (s.toList.map (fun c => .str (String.mk [c]))))
  | .obj kvs => .ok (.list (kvs.map (fun kv => .str kv.1)))
  | v => .error (.typeError ("\x27" ++ pyStr v ++ "\x27 object is not iterable"))

/-- Apply a parameter spec entry: identity when the spec value is None,
otherwise the coercion callable. -/
def coerceP : Option PType → Value → Except Err Value
  | none, v => .ok v
  | some .str, v => .ok (.str (pyStr v))
  | some .list, v => pyList v

/-- Class-level attributes of an Action subclass (required_params,
optional_params, singleton_param, free_form, allow_empty). -/
structure ActionClass where
  required_params : List (String × Option PType) := []
  optional_params : List (String × Option PType) := []
  singleton_param : Option String := none
  free_form : Bool := false
  allow_empty : Bool := true
deriving Repr

/-- The known-parameter name set: required union optional (Action._known). -/
def ActionClass.known (cls : ActionClass) : List String :=
  cls.required_params.map Prod.fst ++ cls.optional_params.map Prod.fst

/-- Dictionary lookup in an association list (first binding wins, as keys of a
Python dict are unique). -/
def lookupV (kvs : List (String × Value)) (k : String) : Option Value :=
  (kvs.find? (fun p => p.1 == k)).map Prod.snd

/-- Step 1 of Action.validate: normalize the raw input.  None becomes an empty
mapping; a non-dict is accepted only with a singleton_param and wrapped under
it. -/
def normParams (cls : ActionClass) (name : String) : Value →
    Except Err (List (String × Value))
  | .null => .ok []
  | .obj kvs => .ok kvs
  | v =>
    match cls.singleton_param with
    | none => .error (.invalidDefinition
        ["Action " ++ name ++ " accepts an object, not " ++ pyStr v])
    | some sp => .ok [(sp, v)]

/-- The loop over required_params of Action.validate: coerces present values
(raising InvalidDefinition on a TypeError or ValueError from the coercion) and
collects the names of absent ones. -/
def reqLoop (name : String) : List (String × Option PType) →
    List (String × Value) →
    Except Err (List (String × Value) × List String)
  | [], _ => .ok ([], [])
  | (pn, ty) :: rest, kvs =>
    match lookupV kvs pn with
    | none =>
      match reqLoop name rest kvs with
      | .error e => .error e
      | .ok (r, m) => .ok (r, pn :: m)
    | some v =>
      match coerceP ty v with
      | .error exc => .error (.invalidDefinition
          ["Invalid value for parameter " ++ pn ++ " of action " ++ name
            ++ ": " ++ exc.message])
      | .ok w =>
        match reqLoop name rest kvs with
        | .error e => .error e
        | .ok (r, m) => .ok ((pn, w) :: r, m)

/-- The loop over optional_params of Action.validate: absent names are skipped,
present values are coerced like required ones. -/
def optLoop (name : String) : List (String × Option PType) →
    List (String × Value) →
    Except Err (List (String × Value))
  | [], _ => .ok []
  | (pn, ty) :: rest, kvs =>
    match lookupV kvs pn with
    | none => optLoop name rest kvs
    | some v =>
      match coerceP ty v with
      | .error exc => .error (.invalidDefinition
          ["Invalid value for parameter " ++ pn ++ " of action " ++ name
            ++ ": " ++ exc.message])
      | .ok w =>
        match optLoop name rest kvs with
        | .error e => .error e
        | .ok r => .ok ((pn, w) :: r)

/-- Steps 3-6 of Action.validate, after input normalization and the
unknown-key check: the required loop, the missing check, the optional loop and
the allow_empty check. -/
def validateKnown (cls : ActionClass) (name : String)
    (kvs : List (String × Value)) : Except Err (List (String × Value)) :=
  match reqLoop name cls.required_params kvs with
  | .error e => .error e
  | .ok (reqRes, missing) =>
    if !missing.isEmpty then
      .error (.invalidDefinition
        ["Parameters %s are required for action %s",
          String.intercalate "," missing, name])
    else
      match optLoop name cls.optional_params kvs with
      | .error e => .error e
      | .ok optRes =>
        let result := reqRes ++ optRes
        if result.isEmpty && !cls.allow_empty then
          .error (.invalidDefinition
            ["At least one of "
              ++ String.intercalate ", " (cls.optional_params.map Prod.fst)
              ++ " is required"])
        else .ok result

/-- Action.validate: normalize the input, reject unknown keys unless the class
is free-form, then run the required/optional loops and the allow_empty
check. -/
def validate (cls : ActionClass) (name : String) (params : Value) :
    Except Err (List (String × Value)) :=
  match normParams cls name params with
  | .error e => .error e
  | .ok kvs =>
    let unknown := (kvs.map Prod.fst).filter (fun k => !(cls.known.contains k))
    if !cls.free_form && !unknown.isEmpty then
      .error (.invalidDefinition
        ["Parameters " ++ String.intercalate ", " unknown
          ++ " are not recognized"])
    else validateKnown cls name kvs

/-- Action.__init__: raises RuntimeError when singleton_param is neither
required nor optional on a non-free-form class, before validating the
parameters. -/
def actionInit (cls : ActionClass) (name : String) (params : Value) :
    Except Err (List (String × Value)) :=
  match cls.singleton_param with
  | some sp =>
    if !(cls.required_params.map Prod.fst).contains sp
        && !(cls.optional_params.map Prod.fst).contains sp
        && !cls.free_form then
      .error (.runtimeError
        "The singleton parameter must be either a required or an optional parameter")
    else validate cls name params
  | none => validate cls name params

/-- A result of an action (class Result).  Mirrors Result.__init__: succeeded
iff no failure string was given, failed is its negation, result holds the
payload. -/
structure Result where
  succeeded : Bool
  failed : Bool
  failure : Option String
  result : Value
deriving Repr

/-- Result.__init__ with its defaulted failure argument. -/
def mkResult (result : Value) (failure : Option String := none) : Result :=
  { succeeded := failure.isNone
    failed := !failure.isNone
    failure := failure
    result := result }

/-- A value stored in the execution context: a plain value (set by Vars) or a
Result object (stored by registration). -/
inductive CtxVal where
  | val (v : Value)
  | res (r : Result)
deriving Repr

/-- The execution context: an insertion-ordered string-keyed mapping. -/
abbrev Ctx := List (String × CtxVal)

/-- Dictionary assignment: replace the value in place when the key exists,
append otherwise. -/
def ctxSet (ctx : Ctx) (k : String) (v : CtxVal) : Ctx :=
  match ctx with
  | [] => [(k, v)]
  | (k0, v0) :: rest =>
    if k0 == k then (k, v) :: rest else (k0, v0) :: ctxSet rest k v

/-- Dictionary lookup in the execution context. -/
def ctxGet (ctx : Ctx) (k : String) : Option CtxVal :=
  (ctx.find? (fun p => p.1 == k)).map Prod.snd

/-- The observable engine state threaded through an invocation: the execution
context plus the engine logger's call list (severity, message). -/
structure EState where
  ctx : Ctx
  logs : List (String × String)
deriving Repr

/-- One call on the engine logger, with the lazy %-formatting applied. -/
def logMsg (s : EState) (severity message : String) : EState :=
  { s with logs := s.logs ++ [(severity, message)] }

/-- The external expression evaluator consumed through Engine._evaluate. -/
abbrev Evaluator := String → Ctx → Bool

/-- The definition argument of When.__init__: a string or a list of them. -/
inductive WhenInput where
  | one (s : String)
  | many (ss : List String)
deriving Repr

/-- When.__init__ normalizes a bare string to a one-element list. -/
def whenDefinition : WhenInput → List String
  | .one s => [s]
  | .many ss => ss

/-- When.__call__: true iff the evaluator returns true for every expression,
left to right. -/
def whenCall (ev : Evaluator) (defn : List String) (ctx : Ctx) : Bool :=
  defn.all (fun expr => ev expr ctx)

/-- Class attributes of Block. -/
def Block.actionClass : ActionClass :=
  { required_params := [("tasks", some .list)], singleton_param := some "tasks" }

/-- Class attributes of Fail. -/
def Fail.actionClass : ActionClass :=
  { required_params := [("msg", some .str)], singleton_param := some "msg" }

/-- Class attributes of Log. -/
def Log.actionClass : ActionClass :=
  { optional_params :=
      [("debug", some .str), ("info", some .str),
        ("warning", some .str), ("error", some .str)]
    allow_empty := false }

/-- Class attributes of Return. -/
def Return.actionClass : ActionClass :=
  { optional_params := [("result", none)], singleton_param := some "result" }

/-- Class attributes of Vars (and its alias SetVar). -/
def Vars.actionClass : ActionClass :=
  { free_form := true }

/-- The execute behaviour of a non-nesting Action subclass: one of the
built-in leaf variants, or an arbitrary subclass whose execute raises a given
error or returns a given value. -/
inductive SimpleKind where
  | failK
  | logK
  | returnK
  | varsK
  | raisesK (e : Err)
  | constK (v : Value)
deriving Repr

/-- An Action instance: its class attributes, execute behaviour, name, when
clause, ignore_errors flag, register key and the raw parameter payload kept in
self._params.  A Block additionally holds the loaded sub-actions that
Block.validate obtains from the external loader (Engine._load_action is
outside src/, so the loader's output is a field rather than recomputed). -/
inductive MAction where
  | simple (cls : ActionClass) (kind : SimpleKind) (name : String)
      (whenC : Option (List String)) (ignore_errors : Bool)
      (register : Option String) (rawParams : Value)
  | block (name : String) (whenC : Option (List String))
      (ignore_errors : Bool) (register : Option String)
      (rawParams : Value) (tasks : List MAction)
deriving Repr

/-- Execute of the non-nesting variants, acting on the validated parameters
returned by Action.validate. -/
def execSimple (kind : SimpleKind) (name : String)
    (vp : List (String × Value)) (s : EState) : EState × Except Err Value :=
  match kind with
  | .failK =>
    match lookupV vp "msg" with
    | some m => (s, .error (.executionFailed (name ++ " aborted: " ++ pyStr m)))
    | none => (s, .error (.keyError "msg"))
  | .logK =>
    (vp.foldl (fun st kv => logMsg st kv.1 (pyStr kv.2)) s, .ok .null)
  | .returnK =>
    (s, .error (.finishScript ((lookupV vp "result").getD .null)))
  | .varsK =>
    ({ s with ctx := vp.foldl (fun c kv => ctxSet c kv.1 (.val kv.2)) s.ctx },
      .ok .null)
  | .raisesK e => (s, .error e)
  | .constK v => (s, .ok v)

/-- The opening of Action.__call__: the when-clause check followed by
re-validation.  Note that the source merely logs when the guard is false and
falls through to validation and execution (there is no early return in
Action.__call__ after the debug message). -/
def preExec (ev : Evaluator) (cls : ActionClass) (name : String)
    (whenC : Option (List String)) (rawParams : Value) (s : EState) :
    EState × Except Err (List (String × Value)) :=
  let s1 :=
    match whenC with
    | some w =>
      if whenCall ev w s.ctx then s
      else logMsg s "debug" ("Action " ++ name ++ " is skipped")
    | none => s
  match validate cls name rawParams with
  | .error e => (s1, .error e)
  | .ok vp => (s1, .ok vp)

/-- Store the Result under the register key when one is set. -/
def registerResult (s : EState) (register : Option String) (r : Result) :
    EState :=
  match register with
  | some key => { s with ctx := ctxSet s.ctx key (.res r) }
  | none => s

/-- The closing of Action.__call__: the except-Exception handler around
execute, then result registration.  An exception is converted into a
failed-ignored Result when ignore_errors is set, otherwise logged and
re-raised; a non-Exception raisable propagates untouched, skipping
registration. -/
def afterExec (name : String) (ignore_errors : Bool)
    (register : Option String) (out : EState × Except Err Value) :
    EState × Except Err Unit :=
  match out with
  | (s, .ok v) =>
    (registerResult s register (mkResult v), .ok ())
  | (s, .error exc) =>
    if exc.isException then
      if ignore_errors then
        let s1 := logMsg s "warning"
          ("Action " ++ name ++ " failed: " ++ exc.message ++ " (ignoring)")
        (registerResult s1 register
          (mkResult .null (some (exc.className ++ ": " ++ exc.message))),
          .ok ())
      else
        (logMsg s "error" ("Action " ++ name ++ " failed: " ++ exc.message),
          .error exc)
    else (s, .error exc)

mutual

/-- Action.__call__: check the when clause, re-validate, execute the variant
body, apply the error policy and register the Result. -/
def callA (ev : Evaluator) : MAction → EState → EState × Except Err Unit
  | .simple cls kind name whenC ign reg raw, s =>
    match preExec ev cls name whenC raw s with
    | (s1, .error e) => (s1, .error e)
    | (s1, .ok vp) => afterExec name ign reg (execSimple kind name vp s1)
  | .block name whenC ign reg raw tasks, s =>
    match preExec ev Block.actionClass name whenC raw s with
    | (s1, .error e) => (s1, .error e)
    | (s1, .ok _) => afterExec name ign reg (runTasks ev tasks s1)

/-- Block.execute: invoke each loaded sub-action in order against the same
context; the first raisable aborts the remaining siblings. -/
def runTasks (ev : Evaluator) : List MAction → EState → EState × Except Err Value
  | [], s => (s, .ok .null)
  | t :: ts, s =>
    match callA ev t s with
    | (s1, .ok _) => runTasks ev ts s1
    | (s1, .error e) => (s1, .error e)

end

/-- An Action subclass that keeps all the class-attribute defaults: no
declared parameters, no singleton, not free-form, empty input allowed. -/
def plainClass : ActionClass := {}

/-- An Action subclass with a single required parameter named zz and no
coercion for it. -/
def reqZZClass : ActionClass := { required_params := [("zz", none)] }

/-- An Action subclass whose singleton_param names neither a required nor an
optional parameter while free_form is left false. -/
def badSingletonClass : ActionClass := { singleton_param := some "x" }

/-- A raw Block payload declaring one (arbitrary) sub-definition, as the
external loader sees it before loading. -/
def blkTasksRaw : Value := .obj [("tasks", .list [.null])]

/-- Wrap an action in a stack of Blocks, one per configuration entry of
(ignore_errors, register). -/
def nestBlocks : List (Bool × Option String) → MAction → MAction
  | [], a => a
  | (ign, reg) :: rest, a =>
    .block "blk" none ign reg blkTasksRaw [nestBlocks rest a]

/-- The required parameters of a spec that are absent from an input, in
declaration order. -/
def missingOf (req : List (String × Option PType))
    (kvs : List (String × Value)) : List String :=
  (req.filter (fun p => (lookupV kvs p.1).isNone)).map Prod.fst

/-- Contiguous-occurrence test on character lists. -/
def subList (needle : List Char) : List Char → Bool
  | [] => needle.isEmpty
  | c :: rest => needle.isPrefixOf (c :: rest) || subList needle rest

/-- Substring test, for checking whether an error message mentions a name. -/
def strContains (hay needle : String) : Bool :=
  subList needle.toList hay.toList

/-- A bare input in the sense of Action.validate step 1: neither None nor a
mapping. -/
def Value.isBare : Value → Bool
  | .null => false
  | .obj _ => false
  | _ => true

/-- A Block whose when clause is absent and whose raw payload validates
propagates any non-Exception raisable from its task list unchanged. -/
theorem block_propagates_non_exception (ev : Evaluator) (ign : Bool)
    (reg : Option String) (inner : MAction) (s s1 : EState) (e : Err)
    (hcall : callA ev inner s = (s1, .error e))
    (hexc : e.isException = false) :
    callA ev (.block "blk" none ign reg blkTasksRaw [inner]) s
      = (s1, .error e) := by
  have hv : preExec ev Block.actionClass "blk" none blkTasksRaw s
      = (s, .ok [("tasks", .list [.null])]) := rfl
  simp only [callA, hv, runTasks, hcall, afterExec, hexc, Bool.false_eq_true,
    if_false]

/-- C1: the claim says that a false guard makes the invocation skip the
action, with no execute call and no Result registered.  The code logs the
skip message but has no early return, so the action still executes and its
Result is still registered: with an always-false evaluator, a guarded action
both emits the skip log line and stores a succeeded Result under its
registration key. -/
theorem Action.call_with_false_guard_still_executes :
    (∀ s : EState, callA (fun _ _ => false)
        (.simple plainClass (.constK (.int 7)) "a" (some ["cond"]) false
          (some "r") .null) s
      = ({ ctx := ctxSet s.ctx "r" (.res (mkResult (.int 7)))
           logs := s.logs ++ [("debug", "Action a is skipped")] }, .ok ()))
    ∧ (∀ ctx : Ctx, whenCall (fun _ _ => false) ["cond"] ctx = false) :=
  ⟨fun _ => rfl, fun _ => rfl⟩

/-- C2: the claim says Vars assigns every provided key/value into the context,
so the two-task Block leaves x bound to 2.  In the code, Action.validate only
copies declared required/optional parameters into its result and Vars declares
none, so Vars.execute always receives an empty mapping and assigns nothing:
the invocation leaves the context untouched and x is never set. -/
theorem Vars.assigns_nothing :
    (∀ (ev : Evaluator) (s : EState) (kvs : List (String × Value))
        (name : String),
      callA ev (.simple Vars.actionClass .varsK name none false none
        (.obj kvs)) s = (s, .ok ()))
    ∧ callA (fun _ _ => true) (.block "blk" none false none
        (.obj [("tasks", .list [.obj [("vars", .obj [("x", .int 1)])],
                                .obj [("vars", .obj [("x", .int 2)])]])])
        [.simple Vars.actionClass .varsK "vars" none false none
          (.obj [("x", .int 1)]),
         .simple Vars.actionClass .varsK "vars" none false none
          (.obj [("x", .int 2)])])
        ⟨[], []⟩
      = (⟨[], []⟩, .ok ())
    ∧ ctxGet ([] : Ctx) "x" = none :=
  ⟨fun _ _ _ _ => rfl, rfl, rfl⟩

/-- C3: a Return action raises the script-finished signal carrying its result
parameter, and the signal unwinds through the invoking action and through any
stack of enclosing Blocks unchanged, whatever the ignore_errors flags and
registration keys on the way: the invocation outcome is the finishScript
raisable itself and the context is left untouched (no Result is stored). -/
theorem Return.finish_signal_unwinds_through_blocks
    (cfgs : List (Bool × Option String)) (ev : Evaluator) (v : Value)
    (rname : String) (i : Bool) (reg : Option String) (s : EState) :
    (callA ev (nestBlocks cfgs
        (.simple Return.actionClass .returnK rname none i reg
          (.obj [("result", v)]))) s).2
      = .error (.finishScript v)
    ∧ (callA ev (nestBlocks cfgs
        (.simple Return.actionClass .returnK rname none i reg
          (.obj [("result", v)]))) s).1.ctx = s.ctx := by
  induction cfgs generalizing s with
  | nil => exact ⟨rfl, rfl⟩
  | cons cfg rest ih =>
    obtain ⟨ign, r⟩ := cfg
    obtain ⟨h2, h1⟩ := ih s
    cases hc : callA ev (nestBlocks rest
        (.simple Return.actionClass .returnK rname none i reg
          (.obj [("result", v)]))) s with
    | mk s1 r1 =>
      rw [hc] at h2 h1
      simp only at h2 h1
      subst h2
      have hb := block_propagates_non_exception ev ign r _ s s1
        (.finishScript v) hc rfl
      simp only [nestBlocks, hb]
      exact ⟨trivial, h1⟩

/-- C5: an action with ignore_errors whose execute raises ValueError(msg)
returns normally with a Result that failed, has a null payload and the
failure string ValueError-colon-msg; the Result is stored under the
registration key and the next sibling in the enclosing Block still runs and
stores its own Result. -/
theorem Action.ignore_errors_records_failure_and_continues
    (ev : Evaluator) (msg aname bname ra rb : String) (v : Value)
    (s : EState) :
    callA ev (.block "blk" none false none blkTasksRaw
        [.simple plainClass (.raisesK (.valueError msg)) aname none true
          (some ra) .null,
         .simple plainClass (.constK v) bname none false (some rb) .null]) s
    = ({ ctx := ctxSet (ctxSet s.ctx ra
            (.res (mkResult .null (some ("ValueError: " ++ msg))))) rb
            (.res (mkResult v))
         logs := s.logs
           ++ [("warning", "Action " ++ aname ++ " failed: " ++ msg
                ++ " (ignoring)")] }, .ok ()) := rfl

/-- C6: an action without ignore_errors whose execute raises propagates the
same error to the caller; no Result is stored for it (the context is exactly
the one before the call, even though a registration key is set), and the
following sibling of the enclosing Block does not run. -/
theorem Action.error_propagates_and_aborts_block
    (ev : Evaluator) (msg aname bname ra rb : String) (v : Value)
    (s : EState) :
    callA ev (.block "blk" none false none blkTasksRaw
        [.simple plainClass (.raisesK (.valueError msg)) aname none false
          (some ra) .null,
         .simple plainClass (.constK v) bname none false (some rb) .null]) s
    = ({ ctx := s.ctx
         logs := s.logs
           ++ [("error", "Action " ++ aname ++ " failed: " ++ msg),
               ("error", "Action blk failed: " ++ msg)] },
       .error (.valueError msg)) := by
  have h1 : callA ev (.block "blk" none false none blkTasksRaw
        [.simple plainClass (.raisesK (.valueError msg)) aname none false
          (some ra) .null,
         .simple plainClass (.constK v) bname none false (some rb) .null]) s
      = ({ ctx := s.ctx
           logs := (s.logs
             ++ [("error", "Action " ++ aname ++ " failed: " ++ msg)])
             ++ [("error", "Action blk failed: " ++ msg)] },
         .error (.valueError msg)) := rfl
  rw [h1, List.append_assoc]
  rfl

/-- C10: an Action subclass whose singleton_param is neither a required nor an
optional parameter and is not free-form fails construction with RuntimeError,
whatever the input parameters are, before any parameter validation runs. -/
theorem Action.init_singleton_undeclared_runtime_error
    (cls : ActionClass) (name : String) (params : Value) (sp : String)
    (hsp : cls.singleton_param = some sp)
    (hreq : (cls.required_params.map Prod.fst).contains sp = false)
    (hopt : (cls.optional_params.map Prod.fst).contains sp = false)
    (hff : cls.free_form = false) :
    actionInit cls name params = .error (.runtimeError
      "The singleton parameter must be either a required or an optional parameter") := by
  have hcond : (!(cls.required_params.map Prod.fst).contains sp
      && !(cls.optional_params.map Prod.fst).contains sp
      && !cls.free_form) = true := by
    rw [hreq, hopt, hff]
    rfl
  unfold actionInit
  rw [hsp]
  simp only [hcond, if_true]

/-- C10 witness: the check fires on a concrete class with singleton_param x
and no declared parameters, for an input that would itself be rejected by
validation, showing the RuntimeError precedes validation. -/
theorem Action.init_singleton_undeclared_runtime_error_witness :
    actionInit badSingletonClass "a" (.obj [("y", .int 1)])
      = .error (.runtimeError
        "The singleton parameter must be either a required or an optional parameter") :=
  Action.init_singleton_undeclared_runtime_error badSingletonClass "a"
    (.obj [("y", .int 1)]) "x" rfl rfl rfl rfl

end Miniscript



namespace Miniscript

/-- When every present required value is coercible, the required loop
succeeds and collects exactly the missing required names, in declaration
order. -/
theorem reqLoop_ok_of_coercible (name : String)
    (req : List (String × Option PType)) (kvs : List (String × Value))
    (hc : ∀ p ∈ req, ∀ v, lookupV kvs p.1 = some v →
      ∃ w, coerceP p.2 v = .ok w) :
    ∃ r, reqLoop name req kvs = .ok (r, missingOf req kvs) := by
  induction req with
  | nil => exact ⟨[], rfl⟩
  | cons p rest ih =>
    obtain ⟨pn, ty⟩ := p
    obtain ⟨r, hr⟩ := ih (fun q hq v hv => hc q (List.mem_cons_of_mem _ hq) v hv)
    cases hl : lookupV kvs pn with
    | none =>
      refine ⟨r, ?_⟩
      simp only [reqLoop, hl, hr, missingOf, List.filter_cons, Option.isNone_none,
        if_true, List.map_cons]
    | some v =>
      obtain ⟨w, hw⟩ := hc (pn, ty) (List.mem_cons_self _ _) v hl
      refine ⟨(pn, w) :: r, ?_⟩
      simp only [reqLoop, hl, hw, hr, missingOf, List.filter_cons, Option.isNone_some,
        Bool.false_eq_true, if_false]

/-- Any required parameter absent from the input appears in the collected
missing-name list. -/
theorem mem_missingOf (req : List (String × Option PType))
    (kvs : List (String × Value)) (p : String × Option PType)
    (hp : p ∈ req) (hnone : lookupV kvs p.1 = none) :
    p.1 ∈ missingOf req kvs := by
  simp only [missingOf, List.mem_map]
  exact ⟨p, List.mem_filter.mpr ⟨hp, by simp [hnone]⟩, rfl⟩

end Miniscript

namespace Miniscript

/-- C4 (amended): for every required-parameter spec and every input mapping
missing at least one required key, whose keys are all declared unless the
variant is free-form, and with all present required values coercible,
validation fails with InvalidDefinition only after collecting all missing
names, and the error names every missing key. -/
theorem validate_missing_required_collects_all
    (cls : ActionClass) (name : String) (kvs : List (String × Value))
    (hfree : cls.free_form = true ∨
      ∀ k ∈ kvs.map Prod.fst, cls.known.contains k = true)
    (hmiss : ∃ p ∈ cls.required_params, lookupV kvs p.1 = none)
    (hco : ∀ p ∈ cls.required_params, ∀ v, lookupV kvs p.1 = some v →
      ∃ w, coerceP p.2 v = .ok w) :
    ∃ missing, validate cls name (.obj kvs)
        = .error (.invalidDefinition
          ["Parameters %s are required for action %s",
            String.intercalate "," missing, name])
      ∧ ∀ p ∈ cls.required_params, lookupV kvs p.1 = none →
          p.1 ∈ missing := by
  refine ⟨missingOf cls.required_params kvs, ?_, ?_⟩
  · obtain ⟨r, hr⟩ := reqLoop_ok_of_coercible name cls.required_params kvs hco
    obtain ⟨p, hp, hnone⟩ := hmiss
    have hmem := mem_missingOf cls.required_params kvs p hp hnone
    have hcond : (!cls.free_form
        && !((kvs.map Prod.fst).filter
              (fun k => !(cls.known.contains k))).isEmpty) = false := by
      rcases hfree with h | h
      · rw [h]; rfl
      · have hnil : (kvs.map Prod.fst).filter
            (fun k => !(cls.known.contains k)) = [] := by
          rw [List.filter_eq_nil_iff]
          intro a ha
          have hct := h a ha
          simp at hct
          simp [hct]
        rw [hnil]
        simp
    have hne : (missingOf cls.required_params kvs).isEmpty = false := by
      cases hmm : missingOf cls.required_params kvs with
      | nil => rw [hmm] at hmem; cases hmem
      | cons a l => rfl
    simp only [validate, normParams, hcond, Bool.false_eq_true, if_false,
      validateKnown, hr, hne, Bool.not_false, if_true]
  · intro p hp hnone
    exact mem_missingOf cls.required_params kvs p hp hnone

/-- C4 witness: a spec requiring zz validated against an empty input fails
with the missing-parameters InvalidDefinition naming zz. -/
theorem validate_missing_required_collects_all_witness :
    ∃ missing, validate reqZZClass "act" (.obj [])
        = .error (.invalidDefinition
          ["Parameters %s are required for action %s",
            String.intercalate "," missing, "act"])
      ∧ ∀ p ∈ reqZZClass.required_params, lookupV [] p.1 = none →
          p.1 ∈ missing :=
  validate_missing_required_collects_all reqZZClass "act" []
    (Or.inr (by intro k hk; cases hk))
    ⟨("zz", none), by simp [reqZZClass], rfl⟩
    (by intro p hp v hv; cases hv)

/-- C4 counterexample: the claim as stated fails on the code.  An input that
is missing the required key zz but contains the unknown key b is rejected by
the unknown-key check, which runs before the required loop: validation fails
with an InvalidDefinition that never mentions the missing key zz. -/
theorem validate_missing_error_can_omit_missing_name :
    validate reqZZClass "act" (.obj [("b", .int 1)])
      = .error (.invalidDefinition ["Parameters b are not recognized"])
    ∧ lookupV [("b", .int 1)] "zz" = none
    ∧ reqZZClass.required_params = [("zz", none)]
    ∧ strContains "Parameters b are not recognized" "zz" = false :=
  ⟨rfl, rfl, rfl, by decide⟩

end Miniscript

namespace Miniscript

/-- A successful required loop maps each required parameter present in the
input to its coerced value in the result. -/
theorem reqLoop_mem (name : String) (req : List (String × Option PType))
    (kvs : List (String × Value)) (r : List (String × Value))
    (m : List String) (h : reqLoop name req kvs = .ok (r, m))
    (p : String × Option PType) (hp : p ∈ req) (v w : Value)
    (hv : lookupV kvs p.1 = some v) (hw : coerceP p.2 v = .ok w) :
    (p.1, w) ∈ r := by
  induction req generalizing r m with
  | nil => cases hp
  | cons q rest ih =>
    obtain ⟨qn, qt⟩ := q
    rw [reqLoop] at h
    cases hl : lookupV kvs qn with
    | none =>
      rw [hl] at h
      simp only [] at h
      cases hrec : reqLoop name rest kvs with
      | error e => rw [hrec] at h; cases h
      | ok pr =>
        obtain ⟨r1, m1⟩ := pr
        rw [hrec] at h
        simp only [Except.ok.injEq, Prod.mk.injEq] at h
        obtain ⟨hr, hm⟩ := h
        rcases List.mem_cons.mp hp with hpq | hprest
        · rw [hpq] at hv
          rw [hv] at hl
          cases hl
        · rw [← hr]
          exact ih r1 m1 hrec hprest
    | some v0 =>
      rw [hl] at h
      simp only [] at h
      cases hcw : coerceP qt v0 with
      | error e => rw [hcw] at h; cases h
      | ok w0 =>
        rw [hcw] at h
        simp only [] at h
        cases hrec : reqLoop name rest kvs with
        | error e => rw [hrec] at h; cases h
        | ok pr =>
          obtain ⟨r1, m1⟩ := pr
          rw [hrec] at h
          simp only [Except.ok.injEq, Prod.mk.injEq] at h
          obtain ⟨hr, hm⟩ := h
          rcases List.mem_cons.mp hp with hpq | hprest
          · rw [hpq] at hv hw
            rw [hv] at hl
            injection hl with hvv
            rw [← hvv] at hcw
            rw [hw] at hcw
            injection hcw with hww
            rw [← hr, hpq]
            rw [hww]
            exact List.mem_cons_self _ _
          · rw [← hr]
            exact List.mem_cons_of_mem _ (ih r1 m1 hrec hprest)

end Miniscript

namespace Miniscript

/-- A successful optional loop maps each optional parameter present in the
input to its coerced value in the result. -/
theorem optLoop_mem (name : String) (opt : List (String × Option PType))
    (kvs : List (String × Value)) (r : List (String × Value))
    (h : optLoop name opt kvs = .ok r)
    (p : String × Option PType) (hp : p ∈ opt) (v w : Value)
    (hv : lookupV kvs p.1 = some v) (hw : coerceP p.2 v = .ok w) :
    (p.1, w) ∈ r := by
  induction opt generalizing r with
  | nil => cases hp
  | cons q rest ih =>
    obtain ⟨qn, qt⟩ := q
    rw [optLoop] at h
    cases hl : lookupV kvs qn with
    | none =>
      rw [hl] at h
      simp only [] at h
      rcases List.mem_cons.mp hp with hpq | hprest
      · rw [hpq] at hv
        rw [hv] at hl
        cases hl
      · exact ih r h hprest
    | some v0 =>
      rw [hl] at h
      simp only [] at h
      cases hcw : coerceP qt v0 with
      | error e => rw [hcw] at h; cases h
      | ok w0 =>
        rw [hcw] at h
        simp only [] at h
        cases hrec : optLoop name rest kvs with
        | error e => rw [hrec] at h; cases h
        | ok r1 =>
          rw [hrec] at h
          simp only [Except.ok.injEq] at h
          rcases List.mem_cons.mp hp with hpq | hprest
          · rw [hpq] at hv hw
            rw [hv] at hl
            injection hl with hvv
            rw [← hvv] at hcw
            rw [hw] at hcw
            injection hcw with hww
            rw [← h, hpq, hww]
            exact List.mem_cons_self _ _
          · rw [← h]
            exact List.mem_cons_of_mem _ (ih r1 hrec hprest)

/-- A successful post-normalization validation maps every declared parameter
present in the input to its coerced value in the result. -/
theorem validateKnown_mem (cls : ActionClass) (name : String)
    (kvs : List (String × Value)) (r : List (String × Value))
    (h : validateKnown cls name kvs = .ok r)
    (p : String × Option PType)
    (hp : p ∈ cls.required_params ++ cls.optional_params) (v w : Value)
    (hv : lookupV kvs p.1 = some v) (hw : coerceP p.2 v = .ok w) :
    (p.1, w) ∈ r := by
  rw [validateKnown] at h
  cases hreq : reqLoop name cls.required_params kvs with
  | error e => rw [hreq] at h; cases h
  | ok pr =>
    obtain ⟨rr, mm⟩ := pr
    rw [hreq] at h
    simp only [] at h
    by_cases hemm : mm.isEmpty = true
    · rw [hemm] at h
      simp only [Bool.not_true, Bool.false_eq_true, if_false] at h
      cases hopt : optLoop name cls.optional_params kvs with
      | error e => rw [hopt] at h; cases h
      | ok orr =>
        rw [hopt] at h
        simp only [] at h
        by_cases hres : ((rr ++ orr).isEmpty && !cls.allow_empty) = true
        · rw [hres] at h; cases h
        · rw [Bool.not_eq_true] at hres
          rw [hres] at h
          simp only [Bool.false_eq_true, if_false, Except.ok.injEq] at h
          rw [← h]
          rcases List.mem_append.mp hp with hpr | hpo
          · exact List.mem_append_left _
              (reqLoop_mem name cls.required_params kvs rr mm hreq p hpr v w hv hw)
          · exact List.mem_append_right _
              (optLoop_mem name cls.optional_params kvs orr hopt p hpo v w hv hw)
    · rw [Bool.not_eq_true] at hemm
      rw [hemm] at h
      simp only [Bool.not_false, if_true] at h
      cases h

end Miniscript

namespace Miniscript

/-- C7: an input containing a key outside required and optional fails
validation with InvalidDefinition naming it when the variant is not
free-form; a free-form variant skips only the unknown-key rejection, so it
accepts arbitrary unknown keys while still coercing and validating every key
that matches a declared required or optional spec. -/
theorem validate_unknown_keys_vs_free_form
    (cls : ActionClass) (name : String) (kvs : List (String × Value)) :
    (cls.free_form = false → ∀ k, k ∈ kvs.map Prod.fst →
      cls.known.contains k = false →
      ∃ u, validate cls name (.obj kvs)
          = .error (.invalidDefinition
            ["Parameters " ++ String.intercalate ", " u
              ++ " are not recognized"])
        ∧ k ∈ u)
    ∧ (cls.free_form = true →
        validate cls name (.obj kvs) = validateKnown cls name kvs
        ∧ ∀ r, validateKnown cls name kvs = .ok r →
          ∀ p ∈ cls.required_params ++ cls.optional_params, ∀ v w,
            lookupV kvs p.1 = some v → coerceP p.2 v = .ok w →
              (p.1, w) ∈ r) := by
  constructor
  · intro hff k hk hu
    refine ⟨(kvs.map Prod.fst).filter (fun k0 => !(cls.known.contains k0)),
      ?_, ?_⟩
    · have hmem : k ∈ (kvs.map Prod.fst).filter
          (fun k0 => !(cls.known.contains k0)) :=
        List.mem_filter.mpr ⟨hk, by rw [hu]; rfl⟩
      have hne : ((kvs.map Prod.fst).filter
          (fun k0 => !(cls.known.contains k0))).isEmpty = false := by
        cases hmm : (kvs.map Prod.fst).filter
            (fun k0 => !(cls.known.contains k0)) with
        | nil => rw [hmm] at hmem; cases hmem
        | cons a l => rfl
      have hcond : (!cls.free_form
          && !((kvs.map Prod.fst).filter
                (fun k0 => !(cls.known.contains k0))).isEmpty) = true := by
        rw [hff, hne]
        rfl
      simp only [validate, normParams, hcond, if_true]
    · exact List.mem_filter.mpr ⟨hk, by rw [hu]; rfl⟩
  · intro hff
    constructor
    · have hcond : (!cls.free_form
          && !((kvs.map Prod.fst).filter
                (fun k0 => !(cls.known.contains k0))).isEmpty) = false := by
        rw [hff]
        rfl
      simp only [validate, normParams, hcond, Bool.false_eq_true, if_false]
    · intro r h p hp v w hv hw
      exact validateKnown_mem cls name kvs r h p hp v w hv hw

/-- C7 witness: a variant with no declared parameters rejects the unknown key
b, while the free-form Vars accepts the same input and validates it through
the declared-spec phase. -/
theorem validate_unknown_keys_vs_free_form_witness :
    (∃ u, validate plainClass "act" (.obj [("b", .int 1)])
        = .error (.invalidDefinition
          ["Parameters " ++ String.intercalate ", " u
            ++ " are not recognized"])
      ∧ "b" ∈ u)
    ∧ validate Vars.actionClass "vars" (.obj [("b", .int 1)])
        = validateKnown Vars.actionClass "vars" [("b", .int 1)] :=
  ⟨(validate_unknown_keys_vs_free_form plainClass "act" [("b", .int 1)]).1
      rfl "b" (by simp) rfl,
    ((validate_unknown_keys_vs_free_form Vars.actionClass "vars"
      [("b", .int 1)]).2 rfl).1⟩

end Miniscript

namespace Miniscript

/-- C8: a bare (non-mapping, non-null) raw input fails validation with
InvalidDefinition when the variant declares no singleton parameter; with a
singleton parameter it is validated exactly like the mapping wrapping it
under that name; a null input validates exactly like an empty mapping. -/
theorem validate_bare_input_normalization
    (cls : ActionClass) (name : String) (v : Value) (hb : v.isBare = true) :
    (cls.singleton_param = none → validate cls name v
        = .error (.invalidDefinition
          ["Action " ++ name ++ " accepts an object, not " ++ pyStr v]))
    ∧ (∀ sp, cls.singleton_param = some sp →
        validate cls name v = validate cls name (.obj [(sp, v)]))
    ∧ validate cls name .null = validate cls name (.obj []) := by
  refine ⟨?_, ?_, rfl⟩
  · intro hsp
    cases v with
    | null => cases hb
    | obj kvs => cases hb
    | bool b => simp [validate, normParams, hsp]
    | int n => simp [validate, normParams, hsp]
    | str s => simp [validate, normParams, hsp]
    | list xs => simp [validate, normParams, hsp]
  · intro sp hsp
    cases v with
    | null => cases hb
    | obj kvs => cases hb
    | bool b => simp [validate, normParams, hsp]
    | int n => simp [validate, normParams, hsp]
    | str s => simp [validate, normParams, hsp]
    | list xs => simp [validate, normParams, hsp]

/-- C8 witness: a bare string is rejected by a variant with no singleton
parameter and is wrapped under msg by Fail. -/
theorem validate_bare_input_normalization_witness :
    validate plainClass "act" (.str "x")
      = .error (.invalidDefinition
        ["Action " ++ "act" ++ " accepts an object, not " ++ pyStr (.str "x")])
    ∧ validate Fail.actionClass "fail" (.str "x")
      = validate Fail.actionClass "fail" (.obj [("msg", .str "x")]) :=
  ⟨(validate_bare_input_normalization plainClass "act" (.str "x") rfl).1 rfl,
   (validate_bare_input_normalization Fail.actionClass "fail" (.str "x")
      rfl).2.1 "msg" rfl⟩

/-- With allow_empty false, validation never returns an empty validated
mapping. -/
theorem validate_ok_not_empty (cls : ActionClass) (name : String) (p : Value)
    (hae : cls.allow_empty = false) (r : List (String × Value))
    (h : validate cls name p = .ok r) : r ≠ [] := by
  rw [validate] at h
  cases hn : normParams cls name p with
  | error e => rw [hn] at h; cases h
  | ok kvs =>
    rw [hn] at h
    simp only [] at h
    by_cases hc : (!cls.free_form
        && !((kvs.map Prod.fst).filter
              (fun k => !(cls.known.contains k))).isEmpty) = true
    · rw [hc] at h
      simp only [if_true] at h
      cases h
    · rw [Bool.not_eq_true] at hc
      rw [hc] at h
      simp only [Bool.false_eq_true, if_false] at h
      rw [validateKnown] at h
      cases hreq : reqLoop name cls.required_params kvs with
      | error e => rw [hreq] at h; cases h
      | ok pr =>
        obtain ⟨rr, mm⟩ := pr
        rw [hreq] at h
        simp only [] at h
        by_cases hm : mm.isEmpty = true
        · rw [hm] at h
          simp only [Bool.not_true, Bool.false_eq_true, if_false] at h
          cases hopt : optLoop name cls.optional_params kvs with
          | error e => rw [hopt] at h; cases h
          | ok orr =>
            rw [hopt] at h
            simp only [] at h
            by_cases hres : (rr ++ orr).isEmpty = true
            · rw [hres, hae] at h
              simp only [Bool.not_false, Bool.and_true, if_true] at h
              cases h
            · rw [Bool.not_eq_true] at hres
              rw [hres] at h
              simp only [Bool.false_and, Bool.false_eq_true, if_false,
                Except.ok.injEq] at h
              rw [← h]
              intro hnil
              rw [hnil] at hres
              cases hres
        · rw [Bool.not_eq_true] at hm
          rw [hm] at h
          simp only [Bool.not_false, if_true] at h
          cases h

/-- C9: for a variant with allow_empty false, a validation that succeeds
never yields an empty validated mapping (an empty one fails with
InvalidDefinition); concretely, Log of an empty mapping fails with the
at-least-one-of InvalidDefinition, Log with only info set validates, and its
invocation performs exactly one log call, at info severity. -/
theorem validate_allow_empty_and_log
    (cls : ActionClass) (name : String) (p : Value)
    (hae : cls.allow_empty = false) :
    (∀ r, validate cls name p = .ok r → r ≠ [])
    ∧ validate Log.actionClass "log" (.obj [])
        = .error (.invalidDefinition
          ["At least one of debug, info, warning, error is required"])
    ∧ validate Log.actionClass "log" (.obj [("info", .str "hi")])
        = .ok [("info", .str "hi")]
    ∧ ∀ (ev : Evaluator) (s : EState),
        callA ev (.simple Log.actionClass .logK "log" none false none
          (.obj [("info", .str "hi")])) s
        = ({ ctx := s.ctx, logs := s.logs ++ [("info", "hi")] }, .ok ()) :=
  ⟨fun r h => validate_ok_not_empty cls name p hae r h, rfl, rfl,
    fun _ _ => rfl⟩

/-- C9 witness: the nonempty-result guarantee instantiated at Log with only
info set. -/
theorem validate_allow_empty_and_log_witness :
    ([(("info" : String), Value.str "hi")] : List (String × Value)) ≠ [] :=
  (validate_allow_empty_and_log Log.actionClass "log"
    (.obj [("info", .str "hi")]) rfl).1 _ rfl

end Miniscript
